import Mathlib

/-!
Verification development for the polytope-model builder
(`src/polytopes/models.py`).

The Python module builds the combinatorial structure (vertices, edges,
faces) of 3D/4D uniform polytopes from a Coxeter presentation via
Wythoff's construction, snub variants via rotation subgroups, and dual
(Catalan) solids from a built polyhedron.  The module consumes two
external collaborators that are not part of the shown source and that the
specification describes only by interface:

* `todd_coxeter.CosetTable` — coset enumeration for a finitely presented
  group, returning a transition table and a canonical word per coset;
* `helpers` — linear-algebra and index-set primitives (Coxeter matrix
  from a diagram, duplicate-face test, shared-edge test, face normal,
  face-by-edge search, mirrors / initial point / reflection matrices).

Those collaborators are modelled here from the specification's words
(each such definition carries a comment starting `Modelled from the
spec:`).  The geometric reflection action on coordinates (mirrors,
reflection matrices, initial point) is left as a parameter of the
embedding: the specification gives no formula for it and all claims
under study are about combinatorial outputs (counts and index lists).
Everything else is translated directly from the Python source.
-/

namespace CosetTable

/-- Modelled from the spec: state of the Todd–Coxeter coset enumeration
(the external `todd_coxeter.CosetTable` collaborator).  `tab` is the
partial transition table (coset × generator symbol → coset), packed into
a single natural number with 16 bits per entry — entry `(c, g)` sits at
bit `16 * (c * ngens + g)` and stores the target coset plus one, zero
meaning undefined.  `invs` assigns every generator symbol its inverse
symbol, `n` is the number of allocated cosets, and `fwd` (16 bits per
coset) forwards cosets merged by a coincidence to their surviving
representative (`fwd c = c` iff coset `c` is alive). -/
structure TCSt where
  ngens : Nat
  invs : List Nat
  n : Nat
  tab : Nat
  fwd : Nat
deriving Repr

def tabGet (ngens tab c g : Nat) : Option Nat :=
  let v := (tab >>> (16 * (c * ngens + g))) &&& 65535
  if v == 0 then none else some (v - 1)

def tabSet (ngens tab c g d : Nat) : Nat :=
  let pos := 16 * (c * ngens + g)
  let cur := (tab >>> pos) &&& 65535
  tab + ((d + 1) <<< pos) - (cur <<< pos)

def tabClear (ngens tab c g : Nat) : Nat :=
  let pos := 16 * (c * ngens + g)
  let cur := (tab >>> pos) &&& 65535
  tab - (cur <<< pos)

def fwdGet (fwd c : Nat) : Nat := (fwd >>> (16 * c)) &&& 65535

def TCSt.inv (st : TCSt) (g : Nat) : Nat := st.invs.getD g g

def alive (st : TCSt) (c : Nat) : Bool := fwdGet st.fwd c == c

/-- Set `tab[c][g] := d` together with the inverse entry
`tab[d][inv g] := c`; if the inverse entry already holds a different
coset, report the pair as a coincidence. -/
def setE (st : TCSt) (c g d : Nat) : TCSt × Option (Nat × Nat) :=
  let t1 := tabSet st.ngens st.tab c g d
  match tabGet st.ngens t1 d (st.inv g) with
  | none => ({ st with tab := tabSet st.ngens t1 d (st.inv g) c }, none)
  | some e0 => ({ st with tab := t1 }, if e0 == c then none else some (e0, c))

/-- Allocate a fresh coset as the image of `c` under symbol `g` (its
table row is implicitly all-undefined). -/
def newCoset (st : TCSt) (c g : Nat) : TCSt × Nat :=
  let n := st.n
  let st1 : TCSt := { st with n := n + 1, fwd := st.fwd + (n <<< (16 * n)) }
  ((setE st1 c g n).1, n)

inductive ScanOut where
  | ok (st : TCSt)
  | coin (st : TCSt) (p : Nat × Nat)
  | filled (st : TCSt)

/-- Scan a word from coset `cur`, expecting to land back on `target`:
follow defined entries, allocate fresh cosets on interior gaps, close the
final gap by a deduction, and report a coincidence when the scan closes
onto the wrong coset. -/
def scanGo (target : Nat) : TCSt → Nat → List Nat → ScanOut
  | st, cur, [] => if cur == target then .ok st else .coin st (cur, target)
  | st, cur, g :: rest =>
    match tabGet st.ngens st.tab cur g with
    | some nxt => scanGo target st nxt rest
    | none =>
      match rest with
      | [] =>
        match setE st cur g target with
        | (st1, none) => .filled st1
        | (st1, some p) => .coin st1 p
      | _ :: _ =>
        let pr := newCoset st cur g
        scanGo target pr.1 pr.2 rest

/-- Process one coincidence: redirect the larger coset onto the smaller
one everywhere in the table, union the two rows (clearing the dead one),
and return the list of newly induced coincidences. -/
def mergeOne (st : TCSt) (a b : Nat) : TCSt × List (Nat × Nat) :=
  let aR := fwdGet st.fwd a
  let bR := fwdGet st.fwd b
  if aR == bR then (st, []) else
  let lo := min aR bR
  let hi := max aR bR
  let tab1 := (List.range (st.n * st.ngens)).foldl
    (fun t idx =>
      let pos := 16 * idx
      if (t >>> pos) &&& 65535 == hi + 1 then
        t + ((lo + 1) <<< pos) - ((hi + 1) <<< pos)
      else t)
    st.tab
  let union := (List.range st.ngens).foldl
    (fun (tp : Nat × List (Nat × Nat)) g =>
      match tabGet st.ngens tp.1 lo g, tabGet st.ngens tp.1 hi g with
      | none, some v => (tabSet st.ngens tp.1 lo g v, tp.2)
      | some u, some v => (tp.1, if u == v then tp.2 else tp.2 ++ [(u, v)])
      | _, none => tp)
    (tab1, [])
  let tab2 := (List.range st.ngens).foldl
    (fun t g => tabClear st.ngens t hi g) union.1
  let fwd1 := (List.range st.n).foldl
    (fun f c => if fwdGet f c == hi then f - ((hi - lo) <<< (16 * c)) else f)
    st.fwd
  ({ st with tab := tab2, fwd := fwd1 }, union.2)

def mergeAll : Nat → TCSt → List (Nat × Nat) → Option TCSt
  | _, st, [] => some st
  | 0, _, _ :: _ => none
  | fuel + 1, st, p :: rest =>
    let pr := mergeOne st p.1 p.2
    mergeAll fuel pr.1 (rest ++ pr.2)

inductive PassOut where
  | coin (st : TCSt) (p : Nat × Nat)
  | changed (st : TCSt)
  | clean (st : TCSt)

/-- Run the scans of one pass: each task `(c, w)` demands that word `w`
traces from coset `c` back to `c` (relator instances at every coset and
subgroup generator words at coset 0).  The pass stops at the first
coincidence, which the main loop merges before rescanning. -/
def passGo : TCSt → List (Nat × List Nat) → Bool → PassOut
  | st, [], ch => if ch then .changed st else .clean st
  | st, (c, w) :: rest, ch =>
    if alive st c then
      match scanGo c st c w with
      | .ok st1 => passGo st1 rest ch
      | .filled st1 => passGo st1 rest true
      | .coin st1 p => .coin st1 p
    else passGo st rest ch

def complete (st : TCSt) : Bool :=
  (List.range st.n).all fun c =>
    !(alive st c) ||
      ((List.range st.ngens).all fun g => (tabGet st.ngens st.tab c g).isSome)

def firstEmpty (st : TCSt) : Option (Nat × Nat) :=
  ((List.range st.n).filterMap fun c =>
    if alive st c then
      match (List.range st.ngens).findIdx?
          (fun g => (tabGet st.ngens st.tab c g).isNone) with
      | some g => some (c, g)
      | none => none
    else none).head?

def tcTasks (st : TCSt) (rels subgens : List (List Nat)) :
    List (Nat × List Nat) :=
  subgens.map (fun w => (0, w)) ++
    ((List.range st.n).map fun c => rels.map fun r => (c, r)).flatten

/-- Main enumeration loop (fuel-bounded; the spec allows non-termination
for infinite-index input, modelled as `none`). -/
def tcLoop (rels subgens : List (List Nat)) : Nat → TCSt → Option TCSt
  | 0, _ => none
  | fuel + 1, st =>
    match passGo st (tcTasks st rels subgens) false with
    | .coin st1 p => (mergeAll fuel st1 [p]).bind (tcLoop rels subgens fuel)
    | .changed st1 => tcLoop rels subgens fuel st1
    | .clean st1 =>
      if complete st1 then some st1
      else
        match firstEmpty st1 with
        | some cg => tcLoop rels subgens fuel (newCoset st1 cg.1 cg.2).1
        | none => some st1

def bfsStep (st : TCSt) (acc : List (Nat × List Nat)) (cw : Nat × List Nat) :
    List (Nat × List Nat) :=
  (List.range st.ngens).foldl
    (fun acc2 g =>
      match tabGet st.ngens st.tab cw.1 g with
      | some d =>
        if acc2.any (fun pr => pr.1 == d) then acc2 else acc2 ++ [(d, cw.2 ++ [g])]
      | none => acc2)
    acc

def bfsGo (st : TCSt) : Nat → Nat → List (Nat × List Nat) → List (Nat × List Nat)
  | 0, _, acc => acc
  | fuel + 1, i, acc =>
    match acc.get? i with
    | none => acc
    | some cw => bfsGo st fuel (i + 1) (bfsStep st acc cw)

/-- Result of a completed enumeration: the (total) transition table after
renumbering the cosets in breadth-first order from the base coset 0, and
the canonical word of every coset — its address from coset 0, so that
walking `words[i]` from coset 0 lands on coset `i` (the contract of the
spec's `CosetTable.canonical_words`). -/
structure TCResult where
  tab : List (List Nat)
  words : List (List Nat)
deriving Repr, DecidableEq

def standardize (st : TCSt) : TCResult :=
  let order := bfsGo st (st.n + 1) 0 [(0, [])]
  let olds := order.map Prod.fst
  { tab := olds.map fun c =>
      (List.range st.ngens).map fun g =>
        olds.indexOf ((tabGet st.ngens st.tab c g).getD 0),
    words := order.map Prod.snd }

/-- Modelled from the spec: the external coset enumerator
(`enumerate(generators, relators, base_subgroup_generators, mode)`).
In `coxeter` mode every generator is its own inverse (the implicit
involution relations of a Coxeter presentation); in free mode no
involution is imposed and the generator symbols are taken to come in
inverse pairs `(2k, 2k+1)`, exactly as in the source's snub
presentations whose relator lists contain `(0,1)`, `(2,3)`, `(4,5)`. -/
def run (ngens : Nat) (rels subgens : List (List Nat)) (coxeter : Bool)
    (fuel : Nat) : Option TCResult :=
  let invs :=
    if coxeter then List.range ngens
    else (List.range ngens).map fun g => g ^^^ 1
  let st0 : TCSt := { ngens := ngens, invs := invs, n := 1, tab := 0, fwd := 0 }
  (tcLoop rels subgens fuel st0).map standardize

end CosetTable

/-- Coordinates in 3-space, with exact rational entries (the claims under
study are combinatorial; exact arithmetic stands in for the source's
floating point, which the spec declares out of scope). -/
abbrev Vec3 := ℚ × ℚ × ℚ

def totalLen {α : Type} (l : List (List α)) : Nat := (l.map List.length).sum

namespace helpers

def combinations2 {α : Type} : List α → List (α × α)
  | [] => []
  | x :: xs => xs.map (fun y => (x, y)) ++ combinations2 xs

def rankOfLen (n : Nat) : Nat :=
  ((List.range (n + 3)).find? fun r => r * (r - 1) / 2 == n).getD 0

/-- Modelled from the spec: `coxeter_matrix_from_diagram` — the missing
`helpers.get_coxeter_matrix`.  A rank-`r` diagram lists the `r(r-1)/2`
dihedral orders in the order of `itertools.combinations` (for rank 3:
`(m01, m02, m12)`; `Polychora` takes 6 entries for rank 4).  The matrix
is symmetric with unit diagonal. -/
def get_coxeter_matrix (diagram : List Nat) : List (List Nat) :=
  let r := rankOfLen diagram.length
  let pairs := combinations2 (List.range r)
  (List.range r).map fun i => (List.range r).map fun j =>
    if i == j then 1
    else
      match (pairs.zip diagram).find? (fun pe => pe.1 == (min i j, max i j)) with
      | some pe => pe.2
      | none => 2

def rotationsOf (f : List Nat) : List (List Nat) :=
  (List.range f.length).map fun k => f.drop k ++ f.take k

/-- Modelled from the spec: `is_duplicate_face` — the missing
`helpers.check_duplicate_face`.  Contract: two faces are equal iff one's
index sequence is a rotation or a reversed rotation of the other's. -/
def check_duplicate_face (f : List Nat) (flist : List (List Nat)) : Bool :=
  flist.any fun g0 => (rotationsOf f).contains g0 || (rotationsOf f.reverse).contains g0

/-- Modelled from the spec: `share_edge` — the missing
`helpers.has_common_edge`, testing edge adjacency of two faces by
index-set comparison: the two faces share at least two distinct vertex
indices. -/
def has_common_edge (fa fb : List Nat) : Bool :=
  decide (2 ≤ (fa.dedup.filter fb.contains).length)

def cyclicPairs (f : List Nat) : List (Nat × Nat) :=
  f.zip (f.drop 1 ++ f.take 1)

/-- An edge matches a face when its vertex-index pair occurs as a
cyclically consecutive pair of the face, in either orientation (spec:
"both orientations match"). -/
def edgeInFace (e1 : Nat × Nat) (f : List Nat) : Bool :=
  (cyclicPairs f).contains e1 || (cyclicPairs f).contains (e1.2, e1.1)

def facesWithEdge (e1 : Nat × Nat) (faces : List (List Nat)) : List Nat :=
  (List.range faces.length).filter fun i => edgeInFace e1 (faces.getD i [])

/-- Modelled from the spec: the missing `helpers.find_face_by_edge` — a
dual edge connects the dual vertices of the two primal faces incident to
a primal edge, found by matching the edge's vertex-index pair against
every primal face (both orientations); `none` when fewer than two primal
faces contain the edge. -/
def find_face_by_edge (e1 : Nat × Nat) (faces : List (List Nat)) : Option (Nat × Nat) :=
  match facesWithEdge e1 faces with
  | i :: j :: _ => some (i, j)
  | _ => none

def dot3 (a b : Vec3) : ℚ := a.1 * b.1 + a.2.1 * b.2.1 + a.2.2 * b.2.2

def sub3 (a b : Vec3) : Vec3 := (a.1 - b.1, a.2.1 - b.2.1, a.2.2 - b.2.2)

def cross3 (a b : Vec3) : Vec3 :=
  (a.2.1 * b.2.2 - a.2.2 * b.2.1,
   a.2.2 * b.1 - a.1 * b.2.2,
   a.1 * b.2.1 - a.2.1 * b.1)

def smul3 (c : ℚ) (a : Vec3) : Vec3 := (c * a.1, c * a.2.1, c * a.2.2)

def vzero : Vec3 := (0, 0, 0)

/-- Modelled from the spec: `face_normal` — the missing
`helpers.get_face_normal`, the planar normal of a face, computed from its
first three vertices.  Any scaling or orientation convention cancels in
the dual-vertex formula `normal / mean(normal · vertex)`, so the plain
cross product is used. -/
def get_face_normal (face : List Vec3) : Vec3 :=
  match face with
  | a :: b :: c :: _ => cross3 (sub3 b a) (sub3 c a)
  | _ => vzero

end helpers

def matEntry (cm : List (List Nat)) (i j : Nat) : Nat := (cm.getD i []).getD j 0

/-- `(i, j) * k` — a Python tuple repeated `k` times. -/
def wordPow (w : List Nat) (m : Nat) : List Nat := (List.replicate m w).flatten

namespace BasePolytope

/-- The mutable attributes of a `BasePolytope` instance (and of its
subclasses), with `none` / `[]` for the not-yet-computed fields set up in
`__init__`.  Coordinates live in an arbitrary type `V`: the reflection
matrices come from external linear-algebra collaborators
(`helpers.get_mirrors` / `reflection_matrix` / `get_init_point`) whose
construction the spec leaves out of scope, so the geometric action enters
the embedding as a parameter. -/
structure State (V : Type) where
  coxeter_matrix : List (List Nat)
  active : List Bool
  symmetry_gens : List Nat
  symmetry_rels : List (List Nat)
  init_v : V
  vtable : Option (List (List Nat)) := none
  vwords : List (List Nat) := []
  num_vertices : Option Nat := none
  vertex_coords : List V := []
  num_edges : Option Nat := none
  edge_indices : List (List (Nat × Nat)) := []
  edge_coords : List (List (V × V)) := []
  num_faces : Option Nat := none
  face_indices : List (List (List Nat)) := []
  face_coords : List (List (List V)) := []
deriving DecidableEq

/-- `BasePolytope.__init__`: derive the Coxeter matrix, the active flags
(a mirror is active iff its initial distance is nonzero) and the
symmetry relations `(i, j) * m[i][j]` over all generator pairs. -/
def init_ {V : Type} (coxeter_diagram : List Nat) (init_dist : List ℚ)
    (extra_relations : List (List Nat)) (init_v : V) : State V :=
  let cm := helpers.get_coxeter_matrix coxeter_diagram
  let gens := List.range cm.length
  { coxeter_matrix := cm,
    active := init_dist.map fun x => decide (x ≠ 0),
    symmetry_gens := gens,
    symmetry_rels :=
      (helpers.combinations2 gens).map
        (fun ij => wordPow [ij.1, ij.2] (matEntry cm ij.1 ij.2)) ++ extra_relations,
    init_v := init_v }

/-- `BasePolytope.transform`: apply the reflections named by a word to a
vector, left to right. -/
def transform {V : Type} (refl : Nat → V → V) (v : V) (word : List Nat) : V :=
  word.foldl (fun x w => refl w x) v

/-- `BasePolytope.move`: walk a word through the vertex coset table,
returning the terminal coset index. -/
def move (vtable : List (List Nat)) (vertex : Nat) (word : List Nat) : Nat :=
  word.foldl (fun v w => ((vtable.get? v).bind fun row => row.get? w).getD 0) vertex

/-- `BasePolytope.get_vertices`: enumerate the cosets of the subgroup
generated by the inactive mirrors, record table, words, count and
coordinates. -/
def get_vertices {V : Type} (refl : Nat → V → V) (fuel : Nat) (st : State V) :
    Option (State V) :=
  let vgens := (st.active.enum.filter fun ia => !ia.2).map fun ia => [ia.1]
  (CosetTable.run st.symmetry_gens.length st.symmetry_rels vgens true fuel).map
    fun res =>
      { st with vtable := some res.tab, vwords := res.words,
                num_vertices := some res.words.length,
                vertex_coords := res.words.map (transform refl st.init_v) }

/-- The duplicate test of `BasePolytope.get_edges` / `Snub.get_edges`:
append an ordered pair only when neither it nor its reverse is present. -/
def insertEdge (elist : List (Nat × Nat)) (e1 : Nat × Nat) : List (Nat × Nat) :=
  if elist.contains e1 || elist.contains (e1.2, e1.1) then elist else elist ++ [e1]

/-- The edge list of mirror type `i` built by `BasePolytope.get_edges`
from the words of the edge coset table. -/
def edgeListOf (vtable : List (List Nat)) (i : Nat) (words : List (List Nat)) :
    List (Nat × Nat) :=
  words.foldl (fun el w => insertEdge el (move vtable 0 w, move vtable 0 (i :: w))) []

/-- `BasePolytope.get_edges`. -/
def get_edges {V : Type} (fuel : Nat) (st : State V) : Option (State V) :=
  (st.active.enum.foldlM
    (fun (st1 : State V) (ia : Nat × Bool) =>
      if ia.2 then
        (CosetTable.run st1.symmetry_gens.length st1.symmetry_rels [[ia.1]] true fuel).map
          fun res =>
            let vt := st1.vtable.getD []
            let elist := edgeListOf vt ia.1 res.words
            { st1 with
                edge_indices := st1.edge_indices ++ [elist],
                edge_coords := st1.edge_coords ++
                  [elist.map fun pr =>
                    ((st1.vertex_coords.get? pr.1).getD st1.init_v,
                     (st1.vertex_coords.get? pr.2).getD st1.init_v)] }
      else some st1)
    st).map fun st1 => { st1 with num_edges := some (totalLen st1.edge_indices) }

/-- One step of the face-orbit loop: transform the base face by one word
and append it unless it duplicates a recorded face. -/
def faceStep (vtable : List (List Nat)) (f0 : List Nat)
    (fl : List (List Nat)) (w : List Nat) : List (List Nat) :=
  let f := f0.map fun v => move vtable v w
  if helpers.check_duplicate_face f fl then fl else fl ++ [f]

/-- The face list of one mirror pair (or one snub orbit): transform the
base face by every word, skipping duplicates. -/
def faceListOf (vtable : List (List Nat)) (f0 : List Nat) (words : List (List Nat)) :
    List (List Nat) :=
  words.foldl (faceStep vtable f0) []

/-- The base face of one mirror pair in `BasePolytope.get_faces`: a
`2m`-gon when both mirrors are active, an `m`-gon when exactly one is and
`m > 2`, and `none` (the `continue` branch) otherwise. -/
def baseFaceOf (cm : List (List Nat)) (active : List Bool)
    (vt : List (List Nat)) (ij : Nat × Nat) : Option (List Nat) :=
  let m := matEntry cm ij.1 ij.2
  let acti := active.getD ij.1 false
  let actj := active.getD ij.2 false
  if acti && actj then
    some ((List.range m).foldl
      (fun l k => l ++ [move vt 0 (wordPow [ij.1, ij.2] k),
                        move vt 0 (ij.2 :: wordPow [ij.1, ij.2] k)]) [])
  else if (acti || actj) && decide (2 < m) then
    some ((List.range m).map fun k => move vt 0 (wordPow [ij.1, ij.2] k))
  else none

/-- One iteration of the mirror-pair loop of `BasePolytope.get_faces`. -/
def facePairStep {V : Type} (fuel : Nat) (st1 : State V) (ij : Nat × Nat) :
    Option (State V) :=
  let vt := st1.vtable.getD []
  match baseFaceOf st1.coxeter_matrix st1.active vt ij with
  | none => some st1
  | some f0 =>
    (CosetTable.run st1.symmetry_gens.length st1.symmetry_rels
        [[ij.1], [ij.2]] true fuel).map
      fun (res : CosetTable.TCResult) =>
        let flist := faceListOf vt f0 res.words
        { st1 with
            face_indices := st1.face_indices ++ [flist],
            face_coords := st1.face_coords ++
              [flist.map fun (f : List Nat) =>
                f.map fun x => (st1.vertex_coords.get? x).getD st1.init_v] }

/-- `BasePolytope.get_faces`. -/
def get_faces {V : Type} (fuel : Nat) (st : State V) : Option (State V) :=
  ((helpers.combinations2 st.symmetry_gens).foldlM (facePairStep fuel) st).map
    fun (st1 : State V) => { st1 with num_faces := some (totalLen st1.face_indices) }

/-- `BasePolytope.build_geometry`: vertices, then edges, then faces. -/
def build_geometry {V : Type} (refl : Nat → V → V) (fuel : Nat) (st : State V) :
    Option (State V) :=
  (get_vertices refl fuel st).bind fun s1 =>
    (get_edges fuel s1).bind fun s2 => get_faces fuel s2

end BasePolytope

namespace Polyhedra

/-- `Polyhedra.__init__`: the arity check (`ValueError` modelled as
`none`, raised before any enumeration), then `BasePolytope.__init__`. -/
def init_ {V : Type} (coxeter_diagram : List Nat) (init_dist : List ℚ)
    (extra_relations : List (List Nat)) (init_v : V) :
    Option (BasePolytope.State V) :=
  if coxeter_diagram.length == init_dist.length && init_dist.length == 3 then
    some (BasePolytope.init_ coxeter_diagram init_dist extra_relations init_v)
  else none

end Polyhedra

namespace Polychora

/-- `Polychora.__init__`: the arity check (`ValueError` modelled as
`none`), then `BasePolytope.__init__`. -/
def init_ {V : Type} (coxeter_diagram : List Nat) (init_dist : List ℚ)
    (extra_relations : List (List Nat)) (init_v : V) :
    Option (BasePolytope.State V) :=
  if coxeter_diagram.length == 6 && init_dist.length == 4 then
    some (BasePolytope.init_ coxeter_diagram init_dist extra_relations init_v)
  else none

end Polychora

namespace Polytope5D

/-- `Polytope5D.__init__`: the source's check is
`if len(coxeter_diagram) != 10 and len(init_dist) != 5: raise ValueError`
— a conjunction, so the error is raised only when both lengths are
wrong. -/
def init_ {V : Type} (coxeter_diagram : List Nat) (init_dist : List ℚ)
    (extra_relations : List (List Nat)) (init_v : V) :
    Option (BasePolytope.State V) :=
  if coxeter_diagram.length != 10 && init_dist.length != 5 then none
  else some (BasePolytope.init_ coxeter_diagram init_dist extra_relations init_v)

end Polytope5D

namespace Snub

/-- `Snub.__init__`: run the `Polyhedra` constructor, then overwrite the
generators and relations with the rotation-subgroup presentation
`<r, s | r^p = s^q = (rs)^2 = 1>` over symbols `(0, 1, 2, 3)` where `1`
and `3` are the inverses of the rotations `0` and `2`. -/
def init_ {V : Type} (coxeter_diagram : List Nat) (init_dist : List ℚ)
    (init_v : V) : Option (BasePolytope.State V) :=
  (Polyhedra.init_ coxeter_diagram init_dist [] init_v).map fun st =>
    let cm := st.coxeter_matrix
    { st with
        symmetry_gens := [0, 1, 2, 3],
        symmetry_rels :=
          [wordPow [0] (matEntry cm 0 1), wordPow [2] (matEntry cm 1 2),
           wordPow [0, 2] (matEntry cm 0 2), [0, 1], [2, 3]] }

/-- The keys of the `Snub.rotations` dict, in insertion order. -/
def rotationsKeys : List (List Nat) := [[0], [2], [0, 2]]

/-- `Snub.transform`: each rotation symbol applies a composition of two
reflections. -/
def transform {V : Type} (refl : Nat → V → V) (v : V) (word : List Nat) : V :=
  word.foldl (fun x g0 => if g0 == 0 then refl 1 (refl 0 x) else refl 2 (refl 1 x)) v

/-- `Snub.get_vertices`: enumerate the rotation group itself
(`coxeter=False`, no subgroup generators). -/
def get_vertices {V : Type} (refl : Nat → V → V) (fuel : Nat)
    (st : BasePolytope.State V) : Option (BasePolytope.State V) :=
  (CosetTable.run st.symmetry_gens.length st.symmetry_rels [] false fuel).map
    fun res =>
      { st with vtable := some res.tab, vwords := res.words,
                num_vertices := some res.words.length,
                vertex_coords := res.words.map (transform refl st.init_v) }

/-- The edge list of one rotation orbit built by `Snub.get_edges`. -/
def snubEdgeListOf (vtable : List (List Nat)) (e0 : Nat × Nat)
    (vwords : List (List Nat)) : List (Nat × Nat) :=
  vwords.foldl
    (fun el w =>
      BasePolytope.insertEdge el (BasePolytope.move vtable e0.1 w,
                                  BasePolytope.move vtable e0.2 w))
    []

/-- `Snub.get_edges`: one edge orbit per entry of the rotations dict. -/
def get_edges {V : Type} (st : BasePolytope.State V) : BasePolytope.State V :=
  let st1 := rotationsKeys.foldl
    (fun st1 rot =>
      let vt := st1.vtable.getD []
      let e0 : Nat × Nat := (0, BasePolytope.move vt 0 rot)
      let elist := snubEdgeListOf vt e0 st1.vwords
      { st1 with
          edge_indices := st1.edge_indices ++ [elist],
          edge_coords := st1.edge_coords ++
            [elist.map fun pr =>
              ((st1.vertex_coords.get? pr.1).getD st1.init_v,
               (st1.vertex_coords.get? pr.2).getD st1.init_v)] })
    st
  { st1 with num_edges := some (totalLen st1.edge_indices) }

/-- `Snub.get_faces`: two rotation-orbit base faces of lengths given by
the rotation orders, plus the snub triangle `(0, s·0, rs·0)`. -/
def get_faces {V : Type} (st : BasePolytope.State V) : BasePolytope.State V :=
  let vt := st.vtable.getD []
  let cm := st.coxeter_matrix
  let orbits : List (List Nat) :=
    [(List.range (matEntry cm 0 1)).map fun k => BasePolytope.move vt 0 (wordPow [0] k),
     (List.range (matEntry cm 1 2)).map fun k => BasePolytope.move vt 0 (wordPow [2] k),
     [0, BasePolytope.move vt 0 [2], BasePolytope.move vt 0 [0, 2]]]
  let st1 := orbits.foldl
    (fun st1 f0 =>
      let flist := BasePolytope.faceListOf vt f0 st1.vwords
      { st1 with
          face_indices := st1.face_indices ++ [flist],
          face_coords := st1.face_coords ++
            [flist.map fun f =>
              f.map fun x => (st1.vertex_coords.get? x).getD st1.init_v] })
    st
  { st1 with num_faces := some (totalLen st1.face_indices) }

/-- `build_geometry` as inherited by `Snub`: the overridden vertex, edge
and face passes. -/
def build_geometry {V : Type} (refl : Nat → V → V) (fuel : Nat)
    (st : BasePolytope.State V) : Option (BasePolytope.State V) :=
  (get_vertices refl fuel st).map fun s1 => get_faces (get_edges s1)

end Snub

namespace Catalan3D

/-- The attributes of a `Catalan3D` instance. -/
structure CState where
  num_vertices : Option Nat := none
  vertex_coords : List (List Vec3) := []
  vertex_coords_flatten : List Vec3 := []
  num_edges : Option Nat := none
  edge_indices : List (List (Nat × Nat)) := []
  num_faces : Option Nat := none
  face_indices : List (List Nat) := []
deriving DecidableEq

def initState : CState := {}

/-- The dual vertex of one primal face: the face normal divided by the
mean of (normal · vertex) over the face's vertices.  The division is the
total rational division (the source performs the numpy division
unconditionally, with no degenerate-face check). -/
def dualVertexOf (face : List Vec3) : Vec3 :=
  let normal := helpers.get_face_normal face
  let inn := (face.map (helpers.dot3 normal)).sum / (face.length : ℚ)
  helpers.smul3 (1 / inn) normal

/-- `Catalan3D.get_vertices`: one dual vertex per primal face, grouped as
the primal faces are, with a flattened copy kept alongside. -/
def get_vertices (P : BasePolytope.State Vec3) (C : CState) : CState :=
  let groups := P.face_coords.map fun flist => flist.map dualVertexOf
  { C with vertex_coords := C.vertex_coords ++ groups,
           vertex_coords_flatten := C.vertex_coords_flatten ++ groups.flatten }

/-- The dual edge list built from one primal edge group: for every primal
edge, look up the two primal faces incident to it; edges whose search
fails are silently skipped (`if e is not None`). -/
def dualEdgeList (faces : List (List Nat)) (elist_P : List (Nat × Nat)) :
    List (Nat × Nat) :=
  elist_P.foldl
    (fun el eP =>
      match helpers.find_face_by_edge eP faces with
      | some e1 => el ++ [e1]
      | none => el)
    []

/-- `Catalan3D.get_edges`: one dual edge group per primal edge group. -/
def get_edges (P : BasePolytope.State Vec3) (C : CState) : CState :=
  let P_faces_flatten := P.face_indices.flatten
  { C with edge_indices := C.edge_indices ++
      P.edge_indices.map (dualEdgeList P_faces_flatten) }

/-- The greedy adjacency walk of `Catalan3D.get_faces`: repeatedly append
the first not-yet-visited incident face sharing an edge with the current
one.  When no candidate exists the source's while-loop body makes no
progress and the loop spins forever; that branch is modelled as `none`
(and so is fuel exhaustion, which `fuel = nsides` rules out for every
completing walk). -/
def walkGo (faces : List (List Nat)) (f : List Nat) (nsides : Nat) :
    Nat → List Nat → List Nat → Option (List Nat)
  | 0, new_face, _ =>
    if nsides ≤ new_face.length then some new_face else none
  | fuel + 1, new_face, visited =>
    if nsides ≤ new_face.length then some new_face
    else
      let v := new_face.getLast?.getD 0
      match f.find? (fun u => !(visited.contains u) &&
          helpers.has_common_edge (faces.getD v []) (faces.getD u [])) with
      | some u => walkGo faces f nsides fuel (new_face ++ [u]) (visited ++ [u])
      | none => none

/-- The dual face around one primal vertex: collect the incident primal
faces in discovery order and order them cyclically by the greedy walk.
An isolated vertex (no incident face) is `none`: the source would fail on
`f[0]`. -/
def dualFaceAt (faces : List (List Nat)) (v : Nat) : Option (List Nat) :=
  let f := (faces.enum.filter fun pr => pr.2.contains v).map Prod.fst
  match f with
  | [] => none
  | v0 :: _ => walkGo faces f f.length f.length [v0] [v0]

/-- `Catalan3D.get_faces`: one dual face per primal vertex. -/
def get_faces (P : BasePolytope.State Vec3) (C : CState) : Option CState :=
  let P_faces_flatten := P.face_indices.flatten
  ((List.range (P.num_vertices.getD 0)).mapM (dualFaceAt P_faces_flatten)).map
    fun nfs => { C with face_indices := C.face_indices ++ nfs }

/-- The dual state right after the three counts are copied from the
built primal (`self.num_vertices = self.P.num_faces` and so on). -/
def dualInit (P1 : BasePolytope.State Vec3) : CState :=
  { initState with num_vertices := P1.num_faces, num_edges := P1.num_edges,
                   num_faces := P1.num_vertices }

/-- `Catalan3D.build_geometry`: build the primal (this mutates `P`: the
returned primal state is the rebuilt one), copy the counts, then run the
three dual passes on a fresh dual state. -/
def build_geometry (refl : Nat → Vec3 → Vec3) (fuel : Nat)
    (P : BasePolytope.State Vec3) : Option (BasePolytope.State Vec3 × CState) :=
  (BasePolytope.build_geometry refl fuel P).bind fun P1 =>
    (get_faces P1 (get_edges P1 (get_vertices P1 (dualInit P1)))).map
      fun C4 => (P1, C4)

end Catalan3D

/-- The trivial coordinate action used to instantiate the embedding on
concrete diagrams: the spec specifies the mirror/reflection construction
only as an external collaborator, and every claim under study concerns
the combinatorial output. -/
def dummyRefl : Nat → Vec3 → Vec3 := fun _ v => v

/-- Enumeration fuel used for every concrete run; all the groups below
are tiny (order at most 48), so this bound is never the binding
constraint. -/
def tcFuel : Nat := 2000

/-- `Polyhedra((4, 2, 3), (1, 0, 0))` — the Wythoff datum of the cube:
only mirror 0 is active. -/
def cubeP : Option (BasePolytope.State Vec3) :=
  Polyhedra.init_ [4, 2, 3] [1, 0, 0] [] helpers.vzero

/-- `Polyhedra((4, 2, 3), (1, 1, 1))` — the claims' "all three initial
distances nonzero" input on the cube's diagram: every mirror active, the
Wythoff datum of the omnitruncated cube. -/
def omniP : Option (BasePolytope.State Vec3) :=
  Polyhedra.init_ [4, 2, 3] [1, 1, 1] [] helpers.vzero

/-- `Polyhedra((3, 2, 2), (1, 1, 0))` — a degenerate but successfully
built polyhedron: a single flat hexagonal face, whose edges lie in only
one face each. -/
def hexP : Option (BasePolytope.State Vec3) :=
  Polyhedra.init_ [3, 2, 2] [1, 1, 0] [] helpers.vzero

/-- `Polyhedra((3, 2, 3), (1, 0, 0))` — the tetrahedron. -/
def tetraState : BasePolytope.State Vec3 :=
  BasePolytope.init_ [3, 2, 3] [1, 0, 0] [] helpers.vzero

/-- `Snub((3, 2, 3))` — the snub construction whose two rotations have
orders `(3, 3)` with the order-2 relation on their product
(`m01 = 3`, `m12 = 3`, `m02 = 2`). -/
def snubP : Option (BasePolytope.State Vec3) :=
  Snub.init_ [3, 2, 3] [1, 1, 1] helpers.vzero

def cubeBuilt : Option (BasePolytope.State Vec3) :=
  cubeP.bind (BasePolytope.build_geometry dummyRefl tcFuel)

def omniBuilt : Option (BasePolytope.State Vec3) :=
  omniP.bind (BasePolytope.build_geometry dummyRefl tcFuel)

def snubBuilt : Option (BasePolytope.State Vec3) :=
  snubP.bind (Snub.build_geometry dummyRefl tcFuel)

def cubeDual : Option (BasePolytope.State Vec3 × Catalan3D.CState) :=
  cubeP.bind (Catalan3D.build_geometry dummyRefl tcFuel)

def omniDual : Option (BasePolytope.State Vec3 × Catalan3D.CState) :=
  omniP.bind (Catalan3D.build_geometry dummyRefl tcFuel)

def hexDual : Option (BasePolytope.State Vec3 × Catalan3D.CState) :=
  hexP.bind (Catalan3D.build_geometry dummyRefl tcFuel)

def tetraDualRes : Option (BasePolytope.State Vec3 × Catalan3D.CState) :=
  Catalan3D.build_geometry dummyRefl tcFuel tetraState

/-- The primal state emerging from the tetrahedron's dual build. -/
def tetraDualP : BasePolytope.State Vec3 :=
  (tetraDualRes.map Prod.fst).getD tetraState

/-- The dual state of the tetrahedron (itself a tetrahedron). -/
def tetraDualC : Catalan3D.CState :=
  (tetraDualRes.map Prod.snd).getD Catalan3D.initState

/-- A handcrafted primal state with a non-manifold vertex link: vertex 0
lies in the two faces `(0,1,2)` and `(0,3,4)`, which share no edge, so
the greedy walk around vertex 0 can never place the second face. -/
def nmFaces : List (List Nat) := [[0, 1, 2], [0, 3, 4]]

def nmP : BasePolytope.State Vec3 :=
  { coxeter_matrix := [], active := [], symmetry_gens := [], symmetry_rels := [],
    init_v := helpers.vzero, num_vertices := some 1, face_indices := [nmFaces] }

/-- A degenerate primal face whose mean of (normal · vertex) is zero:
the plane through `(1,0,0)`, `(-1,0,0)`, `(0,1,0)` contains the
origin. -/
def degFace : List Vec3 := [(1, 0, 0), (-1, 0, 0), (0, 1, 0)]

def degP : BasePolytope.State Vec3 :=
  { coxeter_matrix := [], active := [], symmetry_gens := [], symmetry_rels := [],
    init_v := helpers.vzero, face_coords := [[degFace]] }

/-- Arbitrary length-10 diagram and length-4 distance list for the
`Polytope5D` arity check. -/
def diag10 : List Nat := List.replicate 10 3

def dist4 : List ℚ := [1, 1, 1, 1]

/-- The unordered-pair duplicate freedom that `insertEdge` maintains: no
entry equals a later entry or its reverse. -/
def unorderedNodup (l : List (Nat × Nat)) : Prop :=
  l.Pairwise fun a b => a ≠ b ∧ (a.2, a.1) ≠ b

lemma insertEdge_keep (el : List (Nat × Nat)) (e1 : Nat × Nat)
    (h : unorderedNodup el) : unorderedNodup (BasePolytope.insertEdge el e1) := by
  unfold BasePolytope.insertEdge
  by_cases hc : (el.contains e1 || el.contains (e1.2, e1.1)) = true
  · rw [if_pos hc]; exact h
  · rw [if_neg hc]
    rw [Bool.or_eq_true, not_or] at hc
    have h1 : e1 ∉ el := fun hm => hc.1 (List.elem_iff.mpr hm)
    have h2 : (e1.2, e1.1) ∉ el := fun hm => hc.2 (List.elem_iff.mpr hm)
    refine List.pairwise_append.mpr ⟨h, List.pairwise_singleton _ _, ?_⟩
    intro a ha b hb
    rcases List.mem_singleton.mp hb with rfl
    refine ⟨?_, ?_⟩
    · rintro rfl; exact h1 ha
    · intro hsw
      have ha2 : a = (b.2, b.1) := by rw [← hsw]
      exact h2 (ha2 ▸ ha)

lemma foldl_insertEdge {β : Type} (f : β → Nat × Nat) :
    ∀ (ws : List β) (el : List (Nat × Nat)), unorderedNodup el →
      unorderedNodup (ws.foldl (fun el2 w => BasePolytope.insertEdge el2 (f w)) el) := by
  intro ws
  induction ws with
  | nil => intro el h; exact h
  | cons w ws ih => intro el h; exact ih _ (insertEdge_keep el (f w) h)

/-- C9: For every built polytope (`BasePolytope` and the `Snub`
variants), within every generated edge list no unordered pair of vertex
indices appears twice: a pair is inserted only when neither it nor its
reverse is already in the list. -/
theorem c9_no_duplicate_unordered_edge_pairs :
    (∀ (vt : List (List Nat)) (i : Nat) (words : List (List Nat)),
      unorderedNodup (BasePolytope.edgeListOf vt i words)) ∧
    (∀ (vt : List (List Nat)) (e0 : Nat × Nat) (vwords : List (List Nat)),
      unorderedNodup (Snub.snubEdgeListOf vt e0 vwords)) := by
  constructor
  · intro vt i words
    exact foldl_insertEdge
      (fun w => (BasePolytope.move vt 0 w, BasePolytope.move vt 0 (i :: w)))
      words [] List.Pairwise.nil
  · intro vt e0 vwords
    exact foldl_insertEdge
      (fun w => (BasePolytope.move vt e0.1 w, BasePolytope.move vt e0.2 w))
      vwords [] List.Pairwise.nil

lemma move_lt (tab : List (List Nat)) (N : Nat)
    (htab : ∀ row ∈ tab, ∀ x ∈ row, x < N) (hN : 0 < N) :
    ∀ (w : List Nat) (v : Nat), v < N → BasePolytope.move tab v w < N := by
  intro w
  induction w with
  | nil => intro v hv; simpa [BasePolytope.move] using hv
  | cons g w ih =>
    intro v hv
    have hstep : ((tab.get? v).bind fun row => row.get? g).getD 0 < N := by
      cases hx : (tab.get? v).bind fun row => row.get? g with
      | none => simpa using hN
      | some x =>
        obtain ⟨row, hrow, hxr⟩ := Option.bind_eq_some.mp hx
        simpa using htab row (List.get?_mem hrow) x (List.get?_mem hxr)
    have hmv : BasePolytope.move tab v (g :: w) =
        BasePolytope.move tab (((tab.get? v).bind fun row => row.get? g).getD 0) w := rfl
    rw [hmv]
    exact ih _ hstep

lemma foldl_insertEdge_mem {β : Type} (f : β → Nat × Nat) (Q : Nat × Nat → Prop)
    (hf : ∀ w, Q (f w)) :
    ∀ (ws : List β) (el : List (Nat × Nat)), (∀ a ∈ el, Q a) →
      ∀ a ∈ ws.foldl (fun el2 w => BasePolytope.insertEdge el2 (f w)) el, Q a := by
  intro ws
  induction ws with
  | nil => intro el hel a ha; exact hel a ha
  | cons w ws ih =>
    intro el hel a ha
    have hstep : ∀ b ∈ BasePolytope.insertEdge el (f w), Q b := by
      intro b hb
      unfold BasePolytope.insertEdge at hb
      by_cases hc : (el.contains (f w) || el.contains ((f w).2, (f w).1)) = true
      · rw [if_pos hc] at hb; exact hel b hb
      · rw [if_neg hc] at hb
        rcases List.mem_append.mp hb with hb1 | hb2
        · exact hel b hb1
        · rcases List.mem_singleton.mp hb2 with rfl; exact hf w
    exact ih (BasePolytope.insertEdge el (f w)) hstep a
      (by rw [List.foldl_cons] at ha; exact ha)

lemma foldl_faceStep_mem (vt : List (List Nat)) (f0 : List Nat) (Q : Nat → Prop)
    (hQ : ∀ v ∈ f0, ∀ w, Q (BasePolytope.move vt v w)) :
    ∀ (words : List (List Nat)) (fl : List (List Nat)),
      (∀ f ∈ fl, ∀ x ∈ f, Q x) →
      ∀ f ∈ words.foldl (BasePolytope.faceStep vt f0) fl, ∀ x ∈ f, Q x := by
  intro words
  induction words with
  | nil => intro fl hfl f hf; exact hfl f hf
  | cons w ws ih =>
    intro fl hfl f hf
    have hstep : ∀ f2 ∈ BasePolytope.faceStep vt f0 fl w, ∀ x ∈ f2, Q x := by
      intro f2 hf2
      simp only [BasePolytope.faceStep] at hf2
      by_cases hc : helpers.check_duplicate_face
          (f0.map fun v => BasePolytope.move vt v w) fl = true
      · rw [if_pos hc] at hf2; exact hfl f2 hf2
      · rw [if_neg hc] at hf2
        rcases List.mem_append.mp hf2 with hb1 | hb2
        · exact hfl f2 hb1
        · rcases List.mem_singleton.mp hb2 with rfl
          intro x hx
          rcases List.mem_map.mp hx with ⟨v, hv, rfl⟩
          exact hQ v hv w
    exact ih (BasePolytope.faceStep vt f0 fl w) hstep f
      (by rw [List.foldl_cons] at hf; exact hf)

/-- C10: Assuming the coset table maps every (coset, generator) pair to a
coset index below the number `N` of enumerated cosets, every vertex index
produced by `move` — and hence every index recorded in the edge and face
lists — lies in `[0, N)`, so the `vertex_coords` lookups (a list of
length `N`) never go out of bounds. -/
theorem c10_indices_in_range (tab : List (List Nat)) (N : Nat)
    (htab : ∀ row ∈ tab, ∀ x ∈ row, x < N) (hN : 0 < N) :
    (∀ (w : List Nat) (v : Nat), v < N → BasePolytope.move tab v w < N) ∧
    (∀ (i : Nat) (words : List (List Nat)),
      ∀ e1 ∈ BasePolytope.edgeListOf tab i words, e1.1 < N ∧ e1.2 < N) ∧
    (∀ (f0 : List Nat) (words : List (List Nat)), (∀ v ∈ f0, v < N) →
      ∀ f ∈ BasePolytope.faceListOf tab f0 words, ∀ x ∈ f, x < N) ∧
    (∀ (coords : List Vec3), coords.length = N →
      ∀ x, x < N → (coords.get? x).isSome = true) := by
  have hmove := move_lt tab N htab hN
  refine ⟨hmove, ?_, ?_, ?_⟩
  · intro i words e1 he1
    exact foldl_insertEdge_mem
      (fun w => (BasePolytope.move tab 0 w, BasePolytope.move tab 0 (i :: w)))
      (fun a => a.1 < N ∧ a.2 < N)
      (fun w => ⟨hmove w 0 hN, hmove (i :: w) 0 hN⟩)
      words [] (by intro a ha; cases ha) e1 he1
  · intro f0 words hf0 f hf
    exact foldl_faceStep_mem tab f0 (fun x => x < N)
      (fun v hv w => hmove w v (hf0 v hv))
      words [] (by intro f2 hf2; cases hf2) f hf
  · intro coords hlen x hx
    cases hget : coords.get? x with
    | none =>
      have := List.get?_eq_none.mp hget
      omega
    | some y => rfl

theorem c10_witness : BasePolytope.move [[0, 0, 0]] 0 [0, 1, 2, 0] < 1 :=
  (c10_indices_in_range [[0, 0, 0]] 1 (by decide) (by decide)).1 [0, 1, 2, 0] 0 (by decide)

/-- C5: On a non-manifold vertex link — vertex 0 whose two incident faces
share no edge — the greedy walk of `Catalan3D.get_faces` can never place
the second face: it completes at no fuel bound (the source's while loop
makes no progress and spins forever), and the dual face pass fails
instead of surfacing a `NonManifoldVertexLink` error; no such error
exists in the source. -/
theorem c5_nonmanifold_walk_never_completes :
    (∀ fuel : Nat, Catalan3D.walkGo nmFaces [0, 1] 2 fuel [0] [0] = none) ∧
    Catalan3D.get_faces nmP Catalan3D.initState = none := by
  constructor
  · intro fuel
    cases fuel with
    | zero => rfl
    | succ n => rfl
  · rfl

/-- C6: The `Polyhedra` and `Polychora` constructors reject exactly the
arity-mismatched inputs, but the `Polytope5D` check uses a conjunction
(`len != 10 and len != 5`), so a length-10 diagram with a length-4
distance list — an arity mismatch — passes without a `ValueError`. -/
theorem c6_constructor_arity_checks :
    (∀ (cd : List Nat) (dist : List ℚ) (xr : List (List Nat)),
      (Polyhedra.init_ (V := Vec3) cd dist xr helpers.vzero).isSome = true ↔
        (cd.length = dist.length ∧ dist.length = 3)) ∧
    (∀ (cd : List Nat) (dist : List ℚ) (xr : List (List Nat)),
      (Polychora.init_ (V := Vec3) cd dist xr helpers.vzero).isSome = true ↔
        (cd.length = 6 ∧ dist.length = 4)) ∧
    (∀ (cd : List Nat) (dist : List ℚ) (xr : List (List Nat)),
      (Polytope5D.init_ (V := Vec3) cd dist xr helpers.vzero).isSome = true ↔
        ¬(cd.length ≠ 10 ∧ dist.length ≠ 5)) ∧
    ((Polytope5D.init_ (V := Vec3) diag10 dist4 [] helpers.vzero).isSome = true ∧
      dist4.length ≠ 5) := by
  refine ⟨?_, ?_, ?_, ?_⟩
  · intro cd dist xr
    unfold Polyhedra.init_
    by_cases hcond : (cd.length == dist.length && dist.length == 3) = true
    · rw [if_pos hcond]
      simp only [Bool.and_eq_true, beq_iff_eq] at hcond
      simp [hcond]
    · rw [if_neg hcond]
      simp only [Bool.and_eq_true, beq_iff_eq] at hcond
      simp [hcond]
  · intro cd dist xr
    unfold Polychora.init_
    by_cases hcond : (cd.length == 6 && dist.length == 4) = true
    · rw [if_pos hcond]
      simp only [Bool.and_eq_true, beq_iff_eq] at hcond
      simp [hcond]
    · rw [if_neg hcond]
      simp only [Bool.and_eq_true, beq_iff_eq] at hcond
      simp [hcond]
  · intro cd dist xr
    unfold Polytope5D.init_
    by_cases hcond : (cd.length != 10 && dist.length != 5) = true
    · rw [if_pos hcond]
      simp only [Bool.and_eq_true, bne_iff_ne] at hcond
      simp [hcond]
    · rw [if_neg hcond]
      simp only [Bool.and_eq_true, bne_iff_ne] at hcond
      simp [hcond]
  · exact ⟨by decide, by decide⟩

/-- C7: A primal face whose mean of (normal · vertex) over its vertices
is zero does not make `Catalan3D.get_vertices` fail: no
`DegenerateFaceError` exists in the source, which performs the division
regardless (numpy emits non-finite values with only a warning; in this
exact-arithmetic embedding the total rational division returns the zero
vector). -/
theorem c7_degenerate_face_division_unguarded :
    ((degFace.map (helpers.dot3 (helpers.get_face_normal degFace))).sum /
        (degFace.length : ℚ) = 0) ∧
    (Catalan3D.get_vertices degP Catalan3D.initState).vertex_coords_flatten =
      [helpers.vzero] := by
  constructor
  · simp only [degFace, helpers.get_face_normal, helpers.cross3, helpers.sub3,
      helpers.dot3, List.map, List.sum]
    norm_num
  · simp only [Catalan3D.get_vertices, degP, Catalan3D.initState,
      Catalan3D.dualVertexOf, degFace, helpers.get_face_normal, helpers.cross3,
      helpers.sub3, helpers.dot3, helpers.smul3, helpers.vzero, List.map,
      List.sum, List.flatten]
    norm_num

lemma foldlM_keep {σ α : Type} (F : σ → α → Option σ) (Q : σ → σ → Prop)
    (hrefl : ∀ s, Q s s) (htrans : ∀ a b c, Q a b → Q b c → Q a c)
    (hstep : ∀ s a t, F s a = some t → Q s t) :
    ∀ (l : List α) (s t : σ), l.foldlM F s = some t → Q s t := by
  intro l
  induction l with
  | nil =>
    intro s t h
    have h2 : some s = some t := h
    injection h2 with h3
    exact h3 ▸ hrefl s
  | cons a l ih =>
    intro s t h
    rw [List.foldlM_cons] at h
    cases hF : F s a with
    | none => rw [hF] at h; simp at h
    | some s1 =>
      rw [hF] at h
      exact htrans _ _ _ (hstep s a s1 hF) (ih s1 t h)

lemma facePairStep_keep {V : Type} (fuel : Nat) (s t : BasePolytope.State V)
    (ij : Nat × Nat) (h : BasePolytope.facePairStep fuel s ij = some t) :
    t.num_edges = s.num_edges ∧ t.edge_indices = s.edge_indices ∧
      t.num_vertices = s.num_vertices := by
  simp only [BasePolytope.facePairStep] at h
  split at h
  · injection h with h1
    exact h1 ▸ ⟨rfl, rfl, rfl⟩
  · rcases Option.map_eq_some'.mp h with ⟨res, hrun, hres⟩
    subst hres
    exact ⟨rfl, rfl, rfl⟩

lemma get_edges_sets_num_edges {V : Type} (fuel : Nat)
    (s t : BasePolytope.State V) (h : BasePolytope.get_edges fuel s = some t) :
    t.num_edges = some (totalLen t.edge_indices) := by
  unfold BasePolytope.get_edges at h
  rcases Option.map_eq_some'.mp h with ⟨s1, hfold, hset⟩
  subst hset
  rfl

lemma get_faces_keeps_edges {V : Type} (fuel : Nat)
    (s t : BasePolytope.State V) (h : BasePolytope.get_faces fuel s = some t) :
    t.num_edges = s.num_edges ∧ t.edge_indices = s.edge_indices ∧
      t.num_vertices = s.num_vertices := by
  unfold BasePolytope.get_faces at h
  rcases Option.map_eq_some'.mp h with ⟨s1, hfold, hset⟩
  subst hset
  exact foldlM_keep (BasePolytope.facePairStep fuel)
    (fun a b => b.num_edges = a.num_edges ∧ b.edge_indices = a.edge_indices ∧
      b.num_vertices = a.num_vertices)
    (fun s2 => ⟨rfl, rfl, rfl⟩)
    (fun a b c hab hbc => ⟨hbc.1.trans hab.1, hbc.2.1.trans hab.2.1,
      hbc.2.2.trans hab.2.2⟩)
    (fun s2 a t2 hs => facePairStep_keep fuel s2 t2 a hs)
    _ s s1 hfold

/-- Every state produced by `build_geometry` satisfies
`num_edges = sum of the edge-group lengths` — the invariant set at the
end of `get_edges` and untouched by `get_faces`. -/
lemma build_num_edges {V : Type} (refl : Nat → V → V) (fuel : Nat)
    (s t : BasePolytope.State V)
    (h : BasePolytope.build_geometry refl fuel s = some t) :
    t.num_edges = some (totalLen t.edge_indices) := by
  unfold BasePolytope.build_geometry at h
  rcases Option.bind_eq_some.mp h with ⟨s1, h1, h2⟩
  rcases Option.bind_eq_some.mp h2 with ⟨s2, h3, h4⟩
  have he := get_edges_sets_num_edges fuel s1 s2 h3
  have hk := get_faces_keeps_edges fuel s2 t h4
  rw [hk.1, he, ← hk.2.1]

lemma facesWithEdge_nodup (e1 : Nat × Nat) (faces : List (List Nat)) :
    (helpers.facesWithEdge e1 faces).Nodup :=
  List.Nodup.filter _ (List.nodup_range _)

lemma facesWithEdge_mem (e1 : Nat × Nat) (faces : List (List Nat)) (i : Nat)
    (h : i ∈ helpers.facesWithEdge e1 faces) :
    helpers.edgeInFace e1 (faces.getD i []) = true := by
  unfold helpers.facesWithEdge at h
  exact (List.mem_filter.mp h).2

/-- When at least two primal faces contain an edge, the face search
returns the first two of them — two distinct incident faces. -/
lemma find_face_by_edge_of_two (e1 : Nat × Nat) (faces : List (List Nat))
    (h2 : 2 ≤ (helpers.facesWithEdge e1 faces).length) :
    ∃ i j, helpers.find_face_by_edge e1 faces = some (i, j) ∧ i ≠ j ∧
      helpers.edgeInFace e1 (faces.getD i []) = true ∧
      helpers.edgeInFace e1 (faces.getD j []) = true := by
  cases hfw : helpers.facesWithEdge e1 faces with
  | nil => rw [hfw] at h2; simp at h2
  | cons i tl =>
    cases tl with
    | nil => rw [hfw] at h2; simp at h2
    | cons j rest =>
      have hfind : helpers.find_face_by_edge e1 faces = some (i, j) := by
        unfold helpers.find_face_by_edge
        rw [hfw]
      have hnd := facesWithEdge_nodup e1 faces
      rw [hfw] at hnd
      refine ⟨i, j, hfind, ?_, ?_, ?_⟩
      · intro hij
        exact (List.nodup_cons.mp hnd).1 (hij ▸ List.mem_cons_self j rest)
      · exact facesWithEdge_mem e1 faces i (by rw [hfw]; exact List.mem_cons_self i _)
      · exact facesWithEdge_mem e1 faces j
          (by rw [hfw]; exact List.mem_cons_of_mem i (List.mem_cons_self j rest))

lemma dualEdgeList_go_length (faces : List (List Nat)) :
    ∀ (l : List (Nat × Nat)) (acc : List (Nat × Nat)),
      (∀ e1 ∈ l, (helpers.find_face_by_edge e1 faces).isSome = true) →
      (l.foldl
        (fun el eP =>
          match helpers.find_face_by_edge eP faces with
          | some e1 => el ++ [e1]
          | none => el) acc).length = acc.length + l.length := by
  intro l
  induction l with
  | nil => intro acc h; simp
  | cons eP l ih =>
    intro acc h
    rw [List.foldl_cons]
    cases hfind : helpers.find_face_by_edge eP faces with
    | none =>
      exact absurd (h eP (List.mem_cons_self _ _)) (by rw [hfind]; simp)
    | some e1 =>
      simp only [hfind]
      rw [ih (acc ++ [e1]) (fun x hx => h x (List.mem_cons_of_mem _ hx))]
      simp
      omega

/-- Under the incidence hypothesis, every primal edge of a group yields
exactly one recorded dual edge. -/
lemma dualEdgeList_length (faces : List (List Nat)) (elist_P : List (Nat × Nat))
    (h : ∀ e1 ∈ elist_P, (helpers.find_face_by_edge e1 faces).isSome = true) :
    (Catalan3D.dualEdgeList faces elist_P).length = elist_P.length := by
  unfold Catalan3D.dualEdgeList
  rw [dualEdgeList_go_length faces elist_P [] h]
  simp

lemma opt_eq_pair_of_isSome {α β : Type} (o : Option (α × β)) (d1 : α) (d2 : β)
    (h : o.isSome = true) :
    o = some ((o.map Prod.fst).getD d1, (o.map Prod.snd).getD d2) := by
  cases o with
  | none => cases h
  | some p => simp

/-- C2: For a polyhedron built through `Catalan3D.build_geometry` in
which every primal edge lies in at least two primal faces, the dual
counts are the primal counts swapped, every primal edge group yields a
dual edge group of the same length (one dual edge per primal edge, hence
total recorded entries = `P.num_edges`), and each recorded dual edge
connects two distinct primal faces incident to that primal edge. -/
theorem c2_dual_counts_and_edge_correspondence (refl : Nat → Vec3 → Vec3)
    (fuel : Nat) (P P1 : BasePolytope.State Vec3) (C : Catalan3D.CState)
    (hb : Catalan3D.build_geometry refl fuel P = some (P1, C))
    (hinc : ∀ gr ∈ P1.edge_indices, ∀ e1 ∈ gr,
      2 ≤ (helpers.facesWithEdge e1 P1.face_indices.flatten).length) :
    (C.num_vertices = P1.num_faces ∧ C.num_edges = P1.num_edges ∧
      C.num_faces = P1.num_vertices) ∧
    C.edge_indices.map List.length = P1.edge_indices.map List.length ∧
    P1.num_edges = some (totalLen C.edge_indices) ∧
    (∀ gr ∈ P1.edge_indices, ∀ e1 ∈ gr, ∃ i j,
      helpers.find_face_by_edge e1 P1.face_indices.flatten = some (i, j) ∧
      i ≠ j ∧ helpers.edgeInFace e1 (P1.face_indices.flatten.getD i []) = true ∧
      helpers.edgeInFace e1 (P1.face_indices.flatten.getD j []) = true) := by
  unfold Catalan3D.build_geometry at hb
  rcases Option.bind_eq_some.mp hb with ⟨P2, hbase, hrest⟩
  rcases Option.map_eq_some'.mp hrest with ⟨C4, hfaces, hpair⟩
  rw [Prod.mk.injEq] at hpair
  obtain ⟨rfl, rfl⟩ := hpair
  unfold Catalan3D.get_faces at hfaces
  rcases Option.map_eq_some'.mp hfaces with ⟨nfs, hmapM, hC⟩
  subst hC
  have hCe : (Catalan3D.get_edges P2 (Catalan3D.get_vertices P2
      (Catalan3D.dualInit P2))).edge_indices =
      P2.edge_indices.map (Catalan3D.dualEdgeList P2.face_indices.flatten) := by
    simp [Catalan3D.get_edges, Catalan3D.get_vertices, Catalan3D.dualInit,
      Catalan3D.initState]
  have hsome : ∀ gr ∈ P2.edge_indices, ∀ e1 ∈ gr,
      (helpers.find_face_by_edge e1 P2.face_indices.flatten).isSome = true := by
    intro gr hgr e1 he1
    rcases find_face_by_edge_of_two e1 P2.face_indices.flatten
      (hinc gr hgr e1 he1) with ⟨i, j, hfind, -, -, -⟩
    rw [hfind]; rfl
  have hmaplen : (P2.edge_indices.map
      (Catalan3D.dualEdgeList P2.face_indices.flatten)).map List.length =
      P2.edge_indices.map List.length := by
    rw [List.map_map]
    refine List.map_congr_left ?_
    intro gr hgr
    exact dualEdgeList_length P2.face_indices.flatten gr (hsome gr hgr)
  refine ⟨⟨rfl, rfl, rfl⟩, ?_, ?_, ?_⟩
  · show (Catalan3D.get_edges P2 (Catalan3D.get_vertices P2
      (Catalan3D.dualInit P2))).edge_indices.map List.length =
      P2.edge_indices.map List.length
    rw [hCe, hmaplen]
  · have hne := build_num_edges refl fuel P P2 hbase
    rw [hne]
    show some (totalLen P2.edge_indices) = some (totalLen
      (Catalan3D.get_edges P2 (Catalan3D.get_vertices P2
        (Catalan3D.dualInit P2))).edge_indices)
    rw [hCe]
    unfold totalLen
    rw [hmaplen]
  · intro gr hgr e1 he1
    exact find_face_by_edge_of_two e1 P2.face_indices.flatten (hinc gr hgr e1 he1)

set_option maxRecDepth 40000 in
set_option maxHeartbeats 4000000 in
/-- C1, counterexample to the claim as stated: with diagram `(4, 2, 3)`
and all three initial distances nonzero the build yields 48 vertices
(the omnitruncated cube), not 8. -/
theorem c1_counterexample :
    omniBuilt.map (fun st => st.num_vertices) = some (some 48) ∧
      (48 : Nat) ≠ 8 :=
  ⟨by decide, by decide⟩

set_option maxRecDepth 40000 in
set_option maxHeartbeats 8000000 in
/-- C3, counterexample to the claim as stated: the dual built from the
all-mirrors-active `(4, 2, 3)` polyhedron has `num_vertices = 26` (the
primal is the omnitruncated cube with 26 faces), not 6. -/
theorem c3_counterexample :
    omniDual.map (fun pc => pc.2.num_vertices) = some (some 26) ∧
      (26 : Nat) ≠ 6 :=
  ⟨by decide, by decide⟩

set_option maxRecDepth 40000 in
set_option maxHeartbeats 4000000 in
/-- C2, counterexample to the unconditional claim: the degenerate but
successfully built polyhedron `Polyhedra((3,2,2),(1,1,0))` — a single
flat hexagon — has `num_edges = 6`, yet every face search fails (each
edge lies in only one face), so the dual records 0 edge entries, not one
per primal edge. -/
theorem c2_counterexample :
    hexDual.map (fun pc => (pc.1.num_edges, totalLen pc.2.edge_indices)) =
      some (some 6, 0) ∧ (6 : Nat) ≠ 0 :=
  ⟨by decide, by decide⟩

set_option maxRecDepth 40000 in
set_option maxHeartbeats 4000000 in
theorem c2_witness :
    tetraDualP.num_edges = some (totalLen tetraDualC.edge_indices) :=
  (c2_dual_counts_and_edge_correspondence dummyRefl tcFuel tetraState
    tetraDualP tetraDualC
    (opt_eq_pair_of_isSome tetraDualRes tetraState Catalan3D.initState (by decide))
    (by decide)).2.2.1

/-- C4: The only mutation of the primal performed by
`Catalan3D.build_geometry` is running `P.build_geometry()` itself: the
primal state it returns is exactly the output of
`BasePolytope.build_geometry` on the primal it was given; the dual's own
`get_vertices` / `get_edges` / `get_faces` never touch the primal. -/
theorem c4_dual_build_changes_primal_exactly_by_building
    (refl : Nat → Vec3 → Vec3) (fuel : Nat) (P P1 : BasePolytope.State Vec3)
    (C : Catalan3D.CState)
    (hb : Catalan3D.build_geometry refl fuel P = some (P1, C)) :
    BasePolytope.build_geometry refl fuel P = some P1 := by
  unfold Catalan3D.build_geometry at hb
  rcases Option.bind_eq_some.mp hb with ⟨P2, hbase, hrest⟩
  rcases Option.map_eq_some'.mp hrest with ⟨C4, -, hpair⟩
  rw [Prod.mk.injEq] at hpair
  exact hpair.1 ▸ hbase

set_option maxRecDepth 40000 in
set_option maxHeartbeats 4000000 in
theorem c4_witness :
    BasePolytope.build_geometry dummyRefl tcFuel tetraState = some tetraDualP :=
  c4_dual_build_changes_primal_exactly_by_building dummyRefl tcFuel tetraState
    tetraDualP tetraDualC
    (opt_eq_pair_of_isSome tetraDualRes tetraState Catalan3D.initState (by decide))

set_option maxRecDepth 40000 in
set_option maxHeartbeats 4000000 in
/-- C4, counterexample to "never mutates the primal": building the dual
of a fresh cube leaves the primal with `num_vertices = some 8` where the
primal passed in had `num_vertices = none` — `Catalan3D.build_geometry`
calls `self.P.build_geometry()`, which populates the primal's fields. -/
theorem c4_counterexample :
    cubeDual.map (fun pc => pc.1.num_vertices) = some (some 8) ∧
    cubeP.map (fun st => st.num_vertices) = some none ∧
    cubeDual.map Prod.fst ≠ cubeP :=
  ⟨by decide, by decide, by decide⟩

set_option maxRecDepth 40000 in
set_option maxHeartbeats 4000000 in
/-- C1, amended: with diagram `(4, 2, 3)` and only the first initial
distance nonzero (`init_dist = (1, 0, 0)` — the cube's Wythoff datum)
the build yields `num_vertices = 8`, `num_edges = 12`, `num_faces = 6`,
and every recorded face index tuple has length 4. -/
theorem c1_cube_counts :
    cubeBuilt.map (fun st => (st.num_vertices, st.num_edges, st.num_faces,
      st.face_indices.all fun fl => fl.all fun f => f.length == 4)) =
      some (some 8, some 12, some 6, true) := by
  decide

set_option maxRecDepth 40000 in
set_option maxHeartbeats 4000000 in
/-- C3, amended: the `Catalan3D` dual of the cube
(`Polyhedra((4, 2, 3), (1, 0, 0))`) yields `num_vertices = 6`,
`num_edges = 12`, `num_faces = 8` — the octahedron — and every dual face
recorded in `face_indices` is a tuple of length 3. -/
theorem c3_cube_dual_counts :
    cubeDual.map (fun pc => (pc.2.num_vertices, pc.2.num_edges,
      pc.2.num_faces, pc.2.face_indices.all fun f => f.length == 3)) =
      some (some 6, some 12, some 8, true) := by
  decide

set_option maxRecDepth 40000 in
set_option maxHeartbeats 4000000 in
/-- C8, counterexample to "exactly two" edge orbit types: the snub build
on rotation orders `(3, 3)` with the order-2 product relation records
three edge groups — the loop runs over all three entries of the
`rotations` dict `((0,), (2,), (0, 2))`, not over the two generator
rotations alone. -/
theorem c8_counterexample :
    snubBuilt.map (fun st => st.edge_indices.length) = some 3 ∧
      (3 : Nat) ≠ 2 :=
  ⟨by decide, by decide⟩

set_option maxRecDepth 40000 in
set_option maxHeartbeats 4000000 in
/-- C8, amended: the snub build on rotation orders `(3, 3)` with the
order-2 product relation yields `num_vertices` equal to the length of
the canonical word list of the rotation-group enumeration (both 12), and
`edge_indices` contains exactly three groups — one per entry of the
rotations table `((0,), (2,), (0, 2))` — of sizes 12, 12 and 6. -/
theorem c8_snub_vertex_count_and_edge_orbits :
    snubBuilt.map (fun st => (st.num_vertices, st.vwords.length,
      st.edge_indices.length, st.edge_indices.map List.length)) =
      some (some 12, 12, 3, [12, 12, 6]) ∧
    Snub.rotationsKeys.length = 3 :=
  ⟨by decide, by decide⟩
